import Mathlib

/-!
Shallow embedding of `matamazon.py`: an in-memory inventory/order ledger
(`MatamazonSystem`) with customer/supplier registries, a product catalog,
an order ledger and the operations `register_entity`,
`add_or_update_product`, `place_order`, `remove_object`, `search_products`
and `export_orders`.

Modelling choices, fixed once for the whole file:
* Python `dict`s (insertion-ordered, unique keys) are association lists:
  lookup finds the first binding, assignment to an existing key replaces
  the value in place, assignment to a fresh key appends, deletion removes
  the binding.
* Python `int` identifiers and quantities are `ℕ`: every constructor of
  the source validates them with `validate_nonnegative_int`, so only
  non-negative integers ever inhabit these fields.
* Python `float` monetary values are `ℚ` (exact rational arithmetic; the
  program only ever multiplies and compares them).
* Python exceptions (`InvalidIdException`, `InvalidPriceException`) are
  `Except MatamazonError`; every raising operation of the source performs
  all its checks before its first mutation, so returning `.error` with no
  state faithfully captures "raises without mutating".
-/

namespace Matamazon

/-- Python `d.get(k)` / `d[k]` on an insertion-ordered dict. -/
def lookupD {κ α : Type} [DecidableEq κ] : List (κ × α) → κ → Option α
  | [], _ => none
  | (k1, v) :: rest, k => if k1 = k then some v else lookupD rest k

/-- Python `k in d`. -/
def containsD {κ α : Type} [DecidableEq κ] (m : List (κ × α)) (k : κ) : Bool :=
  (lookupD m k).isSome

/-- Python `d[k] = v`: replaces in place if the key exists, else appends. -/
def insertD {κ α : Type} [DecidableEq κ] : List (κ × α) → κ → α → List (κ × α)
  | [], k, v => [(k, v)]
  | (k1, v1) :: rest, k, v =>
      if k1 = k then (k1, v) :: rest else (k1, v1) :: insertD rest k v

/-- Python `del d[k]` / `d.pop(k)` (keys are unique, as in a dict). -/
def eraseD {κ α : Type} [DecidableEq κ] : List (κ × α) → κ → List (κ × α)
  | [], _ => []
  | (k1, v1) :: rest, k => if k1 = k then rest else (k1, v1) :: eraseD rest k

/-- class Customer (id validated non-negative ⇒ `ℕ`). -/
structure Customer where
  id : Nat
  name : String
  city : String
  address : String
deriving DecidableEq

/-- class Supplier (same shape as Customer). -/
structure Supplier where
  id : Nat
  name : String
  city : String
  address : String
deriving DecidableEq

/-- class Product: price validated non-negative float, quantity and ids
non-negative ints. -/
structure Product where
  id : Nat
  name : String
  price : Rat
  supplier_id : Nat
  quantity : Nat
deriving DecidableEq

/-- class Order. -/
structure Order where
  id : Nat
  customer_id : Nat
  product_id : Nat
  quantity : Nat
  total_price : Rat
deriving DecidableEq

/-- The registries are Python dicts of duck-typed objects: `register_entity`
stores whatever entity it is handed in whichever registry `is_customer`
selects, so registry values range over both classes. -/
inductive Entity where
  | customer : Customer → Entity
  | supplier : Supplier → Entity
deriving DecidableEq

/-- entity.id (both classes expose it). -/
def Entity.id : Entity → Nat
  | .customer c => c.id
  | .supplier s => s.id

/-- entity.city (both classes expose it). -/
def Entity.city : Entity → String
  | .customer c => c.city
  | .supplier s => s.city

/-- The two exception classes of the source, with the formatted message. -/
inductive MatamazonError where
  | invalidId : String → MatamazonError
  | invalidPrice : String → MatamazonError
deriving DecidableEq

/-- class MatamazonSystem: four registries plus the order-id sequence. -/
structure MatamazonSystem where
  customers : List (Nat × Entity)
  suppliers : List (Nat × Entity)
  products : List (Nat × Product)
  orders : List (Nat × Order)
  next_order_id : Nat
deriving DecidableEq

/-- MatamazonSystem.__init__. -/
def initSystem : MatamazonSystem := ⟨[], [], [], [], 1⟩

/-- MatamazonSystem.register_entity: the id must be absent from BOTH
registries; on success the entity is stored in the selected one. -/
def register_entity (s : MatamazonSystem) (entity : Entity) (is_customer : Bool) :
    Except MatamazonError MatamazonSystem :=
  if containsD s.customers entity.id || containsD s.suppliers entity.id then
    .error (.invalidId "Invalid id: already exists")
  else if is_customer then
    .ok { s with customers := insertD s.customers entity.id entity }
  else
    .ok { s with suppliers := insertD s.suppliers entity.id entity }

/-- MatamazonSystem.add_or_update_product: the supplier must exist; a new id
is inserted verbatim; an existing id must keep its supplier_id, and then
only name/price/quantity are overwritten in place. -/
def add_or_update_product (s : MatamazonSystem) (product : Product) :
    Except MatamazonError MatamazonSystem :=
  if containsD s.suppliers product.supplier_id = false then
    .error (.invalidId "Supplier does not exist")
  else
    match lookupD s.products product.id with
    | none => .ok { s with products := insertD s.products product.id product }
    | some existing =>
        if existing.supplier_id ≠ product.supplier_id then
          .error (.invalidId "Cannot change supplier_id for existing product")
        else
          let updated : Product :=
            ⟨existing.id, product.name, product.price, existing.supplier_id, product.quantity⟩
          .ok { s with products := insertD s.products product.id updated }

/-- MatamazonSystem.place_order.  Stock/existence failures are business
outcomes returned as strings, never exceptions.  The source's
`Order(...)` constructor validation cannot fire here: `total_price =
price * quantity` with `price ≥ 0` (Product constructor invariant) and
`quantity : ℕ`, so the operation is total and returns the new state with
the message. -/
def place_order (s : MatamazonSystem) (customer_id product_id quantity : Nat) :
    MatamazonSystem × String :=
  match lookupD s.products product_id with
  | none => (s, "The product does not exist in the system")
  | some product =>
      if product.quantity < quantity then
        (s, "The quantity requested for this product is greater than the quantity in stock")
      else
        let order_id := s.next_order_id
        let total_price := product.price * (quantity : Rat)
        let order : Order := ⟨order_id, customer_id, product_id, quantity, total_price⟩
        ({ s with
            products := insertD s.products product_id
              { product with quantity := product.quantity - quantity },
            orders := insertD s.orders order_id order,
            next_order_id := order_id + 1 },
          "The order has been accepted in the system")

/-- Python `str.lower()` on one character, restricted to the ASCII case map
(all class-type tokens of the program are ASCII). -/
def pyLowerChar (c : Char) : Char :=
  if 'A' ≤ c ∧ c ≤ 'Z' then Char.ofNat (c.toNat + 32) else c

/-- Python `str.lower()`. -/
def pyLower (s : String) : String := ⟨s.data.map pyLowerChar⟩

/-- Python whitespace for `str.strip()`. -/
def pyIsSpace (c : Char) : Bool :=
  c = ' ' || c = '\t' || c = '\n' || c = '\r' || c = '\x0b' || c = '\x0c'

/-- Python `str.strip()`. -/
def pyStrip (s : String) : String :=
  ⟨((s.data.dropWhile pyIsSpace).reverse.dropWhile pyIsSpace).reverse⟩

/-- MatamazonSystem.remove_object.  Returns `none` for
customer/product/supplier and the restored quantity for an order. -/
def remove_object (s : MatamazonSystem) ( _id : Nat) (class_type : String) :
    Except MatamazonError (MatamazonSystem × Option Nat) :=
  let ct := pyLower (pyStrip class_type)
  if ct = "customer" then
    if containsD s.customers _id = false then
      .error (.invalidId ("Customer id does not exist: " ++ toString _id))
    else if s.orders.any fun kv => kv.2.customer_id == _id then
      .error (.invalidId ("Cannot remove customer with existing orders: " ++ toString _id))
    else
      .ok ({ s with customers := eraseD s.customers _id }, none)
  else if ct = "product" then
    if containsD s.products _id = false then
      .error (.invalidId ("Product id does not exist: " ++ toString _id))
    else if s.orders.any fun kv => kv.2.product_id == _id then
      .error (.invalidId ("Cannot remove product with existing orders: " ++ toString _id))
    else
      .ok ({ s with products := eraseD s.products _id }, none)
  else if ct = "supplier" then
    if containsD s.suppliers _id = false then
      .error (.invalidId ("Supplier id does not exist: " ++ toString _id))
    else if s.orders.any fun kv =>
        match lookupD s.products kv.2.product_id with
        | some p => p.supplier_id == _id
        | none => false then
      .error (.invalidId ("Cannot remove supplier with existing orders: " ++ toString _id))
    else
      .ok ({ s with suppliers := eraseD s.suppliers _id }, none)
  else if ct = "order" then
    match lookupD s.orders _id with
    | none => .error (.invalidId ("Order id does not exist: " ++ toString _id))
    | some order =>
        match lookupD s.products order.product_id with
        | none => .ok ({ s with orders := eraseD s.orders _id }, some order.quantity)
        | some p =>
            .ok ({ s with
                    orders := eraseD s.orders _id,
                    products := insertD s.products order.product_id
                      { p with quantity := p.quantity + order.quantity } },
              some order.quantity)
  else
    .error (.invalidId ("Invalid class_type: " ++ class_type))

/-- Does the pattern occur as a list prefix. -/
def isPrefixOfL : List Char → List Char → Bool
  | [], _ => true
  | _ :: _, [] => false
  | p :: ps, c :: cs => p == c && isPrefixOfL ps cs

/-- Substring occurrence over the characters of the haystack. -/
def hasSubstrAux (pat : List Char) : List Char → Bool
  | [] => pat.isEmpty
  | c :: rest => isPrefixOfL pat (c :: rest) || hasSubstrAux pat rest

/-- Python `pat in hay` on strings: case-sensitive substring containment. -/
def strContains (hay pat : String) : Bool := hasSubstrAux pat.data hay.data

/-- Product.__lt__: ascending price, ties broken by ascending id. -/
def productLt (a b : Product) : Bool :=
  if a.price ≠ b.price then decide (a.price < b.price) else decide (a.id < b.id)

/-- The non-strict comparator induced by `Product.__lt__`: Python's stable
`sorted` places `a` no later than `b` exactly when `not (b < a)`. -/
def sortedLe (a b : Product) : Bool := ! productLt b a

/-- The three `continue` conditions of the search loop, as one keep-filter:
quantity not zero, query a substring of the name, and price not above
max_price when one is given. -/
def searchPred (query : String) (max_price : Option Rat) (p : Product) : Bool :=
  (!(p.quantity == 0)) && strContains p.name query &&
    (match max_price with
     | some m => !(decide (m < p.price))
     | none => true)

/-- MatamazonSystem.search_products: keep in-stock products whose name
contains the query and whose price does not exceed `max_price` (when
given), then `sorted(res)` — a stable sort driven by `Product.__lt__`. -/
def search_products (s : MatamazonSystem) (query : String) (max_price : Option Rat) :
    List Product :=
  let res := (s.products.map Prod.snd).filter (searchPred query max_price)
  res.mergeSort sortedLe

/-- toString of a non-negative or negative integer part, zero-padded
fractional digits: helper for `pyFloatRepr`. -/
def padZeros (s : String) (k : Nat) : String :=
  ⟨List.replicate (k - s.data.length) '0' ++ s.data⟩

/-- Python `str()` of a float whose value is an exactly representable
decimal rational (every price/total in this program is one): integral
values print with a trailing `.0`, otherwise the exact decimal expansion
is printed. -/
def pyFloatRepr (q : Rat) : String :=
  let k := ((List.range 31).find? fun j => decide ((q.den : Nat) ∣ 10 ^ j)).getD 0
  if k = 0 then toString q.num ++ ".0"
  else
    let n : Int := q.num * (10 : Int) ^ k / (q.den : Int)
    let sign := if n < 0 then "-" else ""
    let m := n.natAbs
    sign ++ toString (m / 10 ^ k) ++ "." ++ padZeros (toString (m % 10 ^ k)) k

/-- Order.__repr__. -/
def orderRepr (o : Order) : String :=
  "Order(id=" ++ toString o.id ++ ", customer_id=" ++ toString o.customer_id ++
    ", product_id=" ++ toString o.product_id ++ ", quantity=" ++ toString o.quantity ++
    ", total_price=" ++ pyFloatRepr o.total_price ++ ")"

/-- `grouped[city].append(entry)` with `grouped[city] = []` on first sight:
in-place append when the city key exists, else append a fresh binding. -/
def appendGroup (g : List (String × List String)) (city entry : String) :
    List (String × List String) :=
  match g with
  | [] => [(city, [entry])]
  | (c, xs) :: rest =>
      if c = city then (c, xs ++ [entry]) :: rest
      else (c, xs) :: appendGroup rest city entry

/-- MatamazonSystem.export_orders: group order descriptions by the city of
the supplier of the ordered product, skipping orders whose product or
supplier no longer exists.  The result is the grouped dict itself (its
`json.dump` serialization adds nothing to the mapping). -/
def export_orders (s : MatamazonSystem) : List (String × List String) :=
  s.orders.foldl
    (fun grouped kv =>
      match lookupD s.products kv.2.product_id with
      | none => grouped
      | some p =>
          match lookupD s.suppliers p.supplier_id with
          | none => grouped
          | some sup => appendGroup grouped (Entity.city sup) (orderRepr kv.2))
    []

/-- One driver command against the ledger (the dispatcher of `main`).
Entity/product construction happens before the ledger call, so the
Product constructor's price validation is modelled inside `execCmd` for
`upsert`. -/
inductive Cmd where
  | register (e : Entity) (is_customer : Bool)
  | upsert (id : Nat) (name : String) (price : Rat) (supplier_id quantity : Nat)
  | order (customer_id product_id quantity : Nat)
  | remove ( _id : Nat) (class_type : String)

/-- Run one command; a raising command leaves the state unchanged (the
process stops there, so no later state ever descends from the raise). -/
def execCmd (s : MatamazonSystem) : Cmd → MatamazonSystem
  | .register e b =>
      match register_entity s e b with
      | .ok s1 => s1
      | .error _ => s
  | .upsert i n pr sid q =>
      if pr < 0 then s
      else
        match add_or_update_product s ⟨i, n, pr, sid, q⟩ with
        | .ok s1 => s1
        | .error _ => s
  | .order c p q => (place_order s c p q).1
  | .remove i t =>
      match remove_object s i t with
      | .ok (s1, _) => s1
      | .error _ => s

/-- Run a command sequence from a state. -/
def runCmds (s : MatamazonSystem) (cs : List Cmd) : MatamazonSystem :=
  cs.foldl execCmd s

/-- A state the program can actually be in: reached from the fresh system
by some command sequence. -/
def Reachable (s : MatamazonSystem) : Prop :=
  ∃ cs : List Cmd, runCmds initSystem cs = s

/-- Supplier 1 ("Acme", "NYC", "5th Ave") of the spec scenario. -/
def acme : Entity := .supplier ⟨1, "Acme", "NYC", "5th Ave"⟩

/-- Spec scenario, step 1: register supplier 1. -/
def scenario1 : MatamazonSystem := execCmd initSystem (.register acme false)

/-- Product 10 ("Widget", price 2.5, supplier 1, quantity 3). -/
def widget : Product := ⟨10, "Widget", 5 / 2, 1, 3⟩

/-- Spec scenario, step 2: add product 10. -/
def scenario2 : MatamazonSystem := execCmd scenario1 (.upsert 10 "Widget" (5 / 2) 1 3)

/-- Spec scenario, step 3: place_order(7, 10, 2). -/
def scenario3 : MatamazonSystem := (place_order scenario2 7 10 2).1

/-- Keys of a grouped export, in dict (insertion) order, that are new
relative to a set of already-seen keys: Python dict keys in first-seen
order. -/
def newKeys {α : Type} [DecidableEq α] : List α → List α → List α
  | _, [] => []
  | seen, a :: rest =>
      if a ∈ seen then newKeys seen rest else a :: newKeys (a :: seen) rest

/-- First-seen-order deduplication, as Python dict key order. -/
def firstSeen {α : Type} [DecidableEq α] (l : List α) : List α := newKeys [] l

/-- The description strings that `export_orders` files under one city, in
ledger iteration order, computed over an explicit order list. -/
def cityEntriesL (s : MatamazonSystem) (l : List (Nat × Order)) (city : String) :
    List String :=
  l.filterMap fun kv =>
    match lookupD s.products kv.2.product_id with
    | none => none
    | some p =>
        match lookupD s.suppliers p.supplier_id with
        | none => none
        | some sup => if Entity.city sup = city then some (orderRepr kv.2) else none

/-- The supplier city of each non-skipped order, in ledger iteration order,
computed over an explicit order list. -/
def orderCitiesL (s : MatamazonSystem) (l : List (Nat × Order)) : List String :=
  l.filterMap fun kv =>
    match lookupD s.products kv.2.product_id with
    | none => none
    | some p => (lookupD s.suppliers p.supplier_id).map Entity.city

section DictLemmas

variable {κ α : Type} [DecidableEq κ]

theorem lookupD_insertD_self (m : List (κ × α)) (k : κ) (v : α) :
    lookupD (insertD m k v) k = some v := by
  induction m with
  | nil => simp [insertD, lookupD]
  | cons kv rest ih =>
      obtain ⟨k1, v1⟩ := kv
      by_cases h : k1 = k
      · simp [insertD, h, lookupD]
      · simp [insertD, h, lookupD, ih]

theorem lookupD_insertD_ne (m : List (κ × α)) (k k2 : κ) (v : α) (h : k ≠ k2) :
    lookupD (insertD m k v) k2 = lookupD m k2 := by
  induction m with
  | nil => simp [insertD, lookupD, h]
  | cons kv rest ih =>
      obtain ⟨k1, v1⟩ := kv
      by_cases h1 : k1 = k
      · subst h1
        simp [insertD, lookupD, h]
      · simp [insertD, h1, lookupD, ih]

theorem containsD_insertD (m : List (κ × α)) (k k2 : κ) (v : α)
    (h : containsD (insertD m k v) k2 = true) :
    k2 = k ∨ containsD m k2 = true := by
  by_cases hk : k = k2
  · exact Or.inl hk.symm
  · right
    rwa [containsD, lookupD_insertD_ne m k k2 v hk] at h

theorem containsD_eraseD (m : List (κ × α)) (k k2 : κ)
    (h : containsD (eraseD m k) k2 = true) :
    containsD m k2 = true := by
  induction m with
  | nil => simpa [eraseD] using h
  | cons kv rest ih =>
      obtain ⟨k1, v1⟩ := kv
      by_cases h1 : k1 = k
      · simp only [eraseD, if_pos h1] at h
        by_cases h2 : k1 = k2
        · simp [containsD, lookupD, h2]
        · simpa [containsD, lookupD, h2] using h
      · by_cases h2 : k1 = k2
        · simp [containsD, lookupD, h2]
        · simp only [eraseD, if_neg h1] at h
          simp only [containsD, lookupD, if_neg h2] at h ⊢
          exact ih h

theorem containsD_eq_false_iff (m : List (κ × α)) (k : κ) :
    containsD m k = false ↔ lookupD m k = none := by
  cases h : lookupD m k <;> simp [containsD, h]

theorem containsD_eq_true_iff (m : List (κ × α)) (k : κ) :
    containsD m k = true ↔ ∃ v, lookupD m k = some v := by
  cases h : lookupD m k <;> simp [containsD, h]

theorem containsD_iff_mem_keys (m : List (κ × α)) (k : κ) :
    containsD m k = true ↔ k ∈ m.map Prod.fst := by
  induction m with
  | nil => simp [containsD, lookupD]
  | cons kv rest ih =>
      obtain ⟨k1, v1⟩ := kv
      by_cases h : k1 = k
      · simp [containsD, lookupD, h]
      · have hstep : containsD ((k1, v1) :: rest) k = containsD rest k := by
          simp [containsD, lookupD, h]
        rw [hstep, ih, List.map_cons, List.mem_cons]
        constructor
        · exact Or.inr
        · rintro (he | hm)
          · exact absurd he.symm h
          · exact hm

end DictLemmas

theorem productLt_iff (a b : Product) :
    productLt a b = true ↔
      (a.price < b.price ∨ (a.price = b.price ∧ a.id < b.id)) := by
  unfold productLt
  by_cases h : a.price = b.price
  · rw [if_neg (fun hne => hne h)]
    simp only [decide_eq_true_eq]
    constructor
    · exact fun hi => Or.inr ⟨h, hi⟩
    · rintro (hlt | ⟨_, hi⟩)
      · exact absurd hlt (by rw [h]; exact lt_irrefl _)
      · exact hi
  · rw [if_pos h]
    simp only [decide_eq_true_eq]
    constructor
    · exact Or.inl
    · rintro (hlt | ⟨he, _⟩)
      · exact hlt
      · exact absurd he h

theorem productLt_asymm (a b : Product)
    (h1 : productLt a b = true) (h2 : productLt b a = true) : False := by
  rw [productLt_iff] at h1 h2
  rcases h1 with h1 | ⟨he1, hi1⟩ <;> rcases h2 with h2 | ⟨he2, hi2⟩
  · exact absurd h2 (not_lt.mpr (le_of_lt h1))
  · exact absurd h1 (not_lt.mpr (le_of_eq he2))
  · exact absurd h2 (not_lt.mpr (le_of_eq he1))
  · omega

theorem sortedLe_iff (a b : Product) :
    sortedLe a b = true ↔
      (a.price ≤ b.price ∧ (b.price = a.price → a.id ≤ b.id)) := by
  rw [sortedLe, Bool.not_eq_true', Bool.eq_false_iff, Ne, productLt_iff]
  push_neg
  tauto

theorem sortedLe_trans (a b c : Product)
    (h1 : sortedLe a b = true) (h2 : sortedLe b c = true) : sortedLe a c = true := by
  rw [sortedLe_iff] at h1 h2 ⊢
  obtain ⟨hp1, hi1⟩ := h1
  obtain ⟨hp2, hi2⟩ := h2
  refine ⟨le_trans hp1 hp2, fun he => ?_⟩
  have he1 : b.price = a.price := le_antisymm (he ▸ hp2) hp1
  have he2 : c.price = b.price := he1.symm ▸ he
  exact le_trans (hi1 he1) (hi2 he2)

theorem sortedLe_total (a b : Product) : (sortedLe a b || sortedLe b a) = true := by
  cases h : productLt b a with
  | false => simp [sortedLe, h]
  | true =>
      have hf : productLt a b = false := by
        rw [Bool.eq_false_iff]
        intro hab
        exact productLt_asymm a b hab h
      simp [sortedLe, h, hf]

theorem pairwise_strict_of_sorted (l : List Product)
    (hle : l.Pairwise fun a b => sortedLe a b = true)
    (hne : l.Pairwise fun a b => a.id ≠ b.id) :
    l.Pairwise fun a b => productLt a b = true := by
  refine (hle.and hne).imp ?_
  rintro a b ⟨hab, hid⟩
  rw [sortedLe_iff] at hab
  rw [productLt_iff]
  rcases lt_trichotomy a.price b.price with h | h | h
  · exact Or.inl h
  · exact Or.inr ⟨h, by have := hab.2 h.symm; omega⟩
  · exact absurd h (not_lt.mpr hab.1)

theorem scenario1_val : scenario1 = ⟨[], [(1, acme)], [], [], 1⟩ := by
  norm_num [scenario1, execCmd, register_entity, initSystem, containsD, lookupD,
    insertD, acme, Entity.id]

theorem scenario2_val : scenario2 = ⟨[], [(1, acme)], [(10, widget)], [], 1⟩ := by
  norm_num [scenario2, scenario1_val, execCmd, add_or_update_product, containsD,
    lookupD, insertD, acme, widget, Entity.id]

theorem scenario3_val :
    scenario3 =
      ⟨[], [(1, acme)], [(10, ⟨10, "Widget", 5 / 2, 1, 1⟩)], [(1, ⟨1, 7, 10, 2, 5⟩)], 2⟩ := by
  norm_num [scenario3, scenario2_val, place_order, lookupD, insertD, widget]

/-- C1: for every state in which the product exists and the requested
quantity does not exceed its stock, `place_order` decrements that
product's quantity by exactly the requested amount, allocates the next
sequential order id, stores a new order whose total_price equals
`product.price * quantity`, returns the success string, and leaves every
other product, order and both entity registries unchanged. -/
theorem place_order_success_spec (s : MatamazonSystem)
    (customer_id product_id quantity : Nat) (p : Product)
    (hp : lookupD s.products product_id = some p)
    (hq : quantity ≤ p.quantity) :
    (place_order s customer_id product_id quantity).2 =
        "The order has been accepted in the system" ∧
    (place_order s customer_id product_id quantity).1.next_order_id =
        s.next_order_id + 1 ∧
    lookupD (place_order s customer_id product_id quantity).1.products product_id =
        some { p with quantity := p.quantity - quantity } ∧
    lookupD (place_order s customer_id product_id quantity).1.orders s.next_order_id =
        some ⟨s.next_order_id, customer_id, product_id, quantity,
              p.price * (quantity : Rat)⟩ ∧
    (∀ k, k ≠ product_id →
      lookupD (place_order s customer_id product_id quantity).1.products k =
        lookupD s.products k) ∧
    (∀ k, k ≠ s.next_order_id →
      lookupD (place_order s customer_id product_id quantity).1.orders k =
        lookupD s.orders k) ∧
    (place_order s customer_id product_id quantity).1.customers = s.customers ∧
    (place_order s customer_id product_id quantity).1.suppliers = s.suppliers := by
  have hlt : ¬ p.quantity < quantity := not_lt.mpr hq
  have heq : place_order s customer_id product_id quantity =
      ({ s with
          products := insertD s.products product_id
            { p with quantity := p.quantity - quantity },
          orders := insertD s.orders s.next_order_id
            ⟨s.next_order_id, customer_id, product_id, quantity,
              p.price * (quantity : Rat)⟩,
          next_order_id := s.next_order_id + 1 },
        "The order has been accepted in the system") := by
    simp only [place_order, hp, if_neg hlt]
  rw [heq]
  refine ⟨rfl, rfl, lookupD_insertD_self _ _ _, lookupD_insertD_self _ _ _, ?_, ?_, rfl, rfl⟩
  · exact fun k hk => lookupD_insertD_ne _ _ _ _ (Ne.symm hk)
  · exact fun k hk => lookupD_insertD_ne _ _ _ _ (Ne.symm hk)

/-- Witness for C1 at the spec scenario: after registering supplier 1 and
adding product 10 (price 2.5, quantity 3), place_order(7, 10, 2) succeeds,
product 10 is left with quantity 1 and order 1 has total_price 5.0. -/
theorem place_order_success_spec_witness :
    lookupD scenario2.products 10 = some widget ∧ 2 ≤ widget.quantity ∧
    (place_order scenario2 7 10 2).2 = "The order has been accepted in the system" ∧
    scenario3.next_order_id = 2 ∧
    lookupD scenario3.products 10 = some ⟨10, "Widget", 5 / 2, 1, 1⟩ ∧
    lookupD scenario3.orders 1 = some ⟨1, 7, 10, 2, 5⟩ := by
  have h1 : lookupD scenario2.products 10 = some widget := by
    rw [scenario2_val]
    rfl
  have h2 : (2:Nat) ≤ widget.quantity := by decide
  have h := place_order_success_spec scenario2 7 10 2 widget h1 h2
  refine ⟨h1, h2, h.1, ?_, ?_, ?_⟩
  · rw [scenario3_val]
  · rw [scenario3_val]
    rfl
  · rw [scenario3_val]
    rfl

/-- C2: with valid arguments `place_order` never raises on a missing product
or on insufficient stock: it returns the exact rejection string with the
state entirely unchanged, and the boundary is exact — a request of the
full stock is accepted, one unit more is rejected. -/
theorem place_order_rejection_spec (s : MatamazonSystem)
    (customer_id product_id quantity : Nat) :
    (lookupD s.products product_id = none →
      place_order s customer_id product_id quantity =
        (s, "The product does not exist in the system")) ∧
    (∀ p, lookupD s.products product_id = some p → p.quantity < quantity →
      place_order s customer_id product_id quantity =
        (s, "The quantity requested for this product is greater than the quantity in stock")) ∧
    (∀ p, lookupD s.products product_id = some p → quantity ≤ p.quantity →
      (place_order s customer_id product_id quantity).2 =
        "The order has been accepted in the system") := by
  refine ⟨fun h => ?_, fun p hp hlt => ?_, fun p hp hle => ?_⟩
  · simp only [place_order, h]
  · simp only [place_order, hp, if_pos hlt]
  · simp only [place_order, hp, if_neg (not_lt.mpr hle)]

/-- Witness for C2: on the scenario state (product 10 has stock 3), a missing
product id and an over-stock request are both rejected with the exact
strings and no state change, while requesting exactly the stock (3) is
accepted. -/
theorem place_order_rejection_spec_witness :
    lookupD scenario2.products 99 = none ∧
    place_order scenario2 7 99 1 = (scenario2, "The product does not exist in the system") ∧
    lookupD scenario2.products 10 = some widget ∧ widget.quantity < 4 ∧
    place_order scenario2 7 10 4 =
      (scenario2,
        "The quantity requested for this product is greater than the quantity in stock") ∧
    (3:Nat) ≤ widget.quantity ∧
    (place_order scenario2 7 10 3).2 = "The order has been accepted in the system" := by
  have h0 : lookupD scenario2.products 99 = none := by
    rw [scenario2_val]
    rfl
  have h1 : lookupD scenario2.products 10 = some widget := by
    rw [scenario2_val]
    rfl
  have h2 : widget.quantity < 4 := by decide
  have h3 : (3:Nat) ≤ widget.quantity := by decide
  have ha := place_order_rejection_spec scenario2 7 99 1
  have hb := place_order_rejection_spec scenario2 7 10 4
  have hc := place_order_rejection_spec scenario2 7 10 3
  exact ⟨h0, ha.1 h0, h1, h2, hb.2.1 widget h1 h2, h3, hc.2.2 widget h1 h3⟩

/-- C10: `place_order` never consults the customer registry: whenever the
product exists with sufficient stock the order is created for the given
customer id (registered or not), and the whole operation is oblivious to
the contents of the customer registry. -/
theorem place_order_ignores_customers (s : MatamazonSystem)
    (customer_id product_id quantity : Nat) (p : Product)
    (hp : lookupD s.products product_id = some p)
    (hq : quantity ≤ p.quantity) :
    (place_order s customer_id product_id quantity).2 =
        "The order has been accepted in the system" ∧
    lookupD (place_order s customer_id product_id quantity).1.orders s.next_order_id =
        some ⟨s.next_order_id, customer_id, product_id, quantity,
              p.price * (quantity : Rat)⟩ ∧
    (∀ cs : List (Nat × Entity),
      place_order { s with customers := cs } customer_id product_id quantity =
        ({ (place_order s customer_id product_id quantity).1 with customers := cs },
          (place_order s customer_id product_id quantity).2)) := by
  have hlt : ¬ p.quantity < quantity := not_lt.mpr hq
  refine ⟨?_, ?_, fun cs => ?_⟩
  · simp only [place_order, hp, if_neg hlt]
  · simp only [place_order, hp, if_neg hlt]
    exact lookupD_insertD_self _ _ _
  · simp only [place_order, hp, if_neg hlt]

/-- Witness for C10: customer 7 is not registered in the scenario state, yet
place_order(7, 10, 2) is accepted and order 1 references customer 7. -/
theorem place_order_ignores_customers_witness :
    containsD scenario2.customers 7 = false ∧
    lookupD scenario2.products 10 = some widget ∧ 2 ≤ widget.quantity ∧
    (place_order scenario2 7 10 2).2 = "The order has been accepted in the system" ∧
    lookupD scenario3.orders 1 = some ⟨1, 7, 10, 2, 5⟩ := by
  have h0 : containsD scenario2.customers 7 = false := by
    rw [scenario2_val]
    rfl
  have h1 : lookupD scenario2.products 10 = some widget := by
    rw [scenario2_val]
    rfl
  have h2 : (2:Nat) ≤ widget.quantity := by decide
  have h := place_order_ignores_customers scenario2 7 10 2 widget h1 h2
  refine ⟨h0, h1, h2, h.1, ?_⟩
  rw [scenario3_val]
  rfl

theorem upsert_keeps_supplier_id (s : MatamazonSystem) (c : Cmd) (k : Nat) (e : Product)
    (hup : ∃ i n pr sid q, c = Cmd.upsert i n pr sid q)
    (he : lookupD s.products k = some e) :
    ∃ e2, lookupD (execCmd s c).products k = some e2 ∧
      e2.supplier_id = e.supplier_id := by
  obtain ⟨i, n, pr, sid, q, rfl⟩ := hup
  rw [show execCmd s (Cmd.upsert i n pr sid q) =
      (if pr < 0 then s
       else
        match add_or_update_product s ⟨i, n, pr, sid, q⟩ with
        | .ok s1 => s1
        | .error _ => s) from rfl]
  by_cases hneg : pr < 0
  · rw [if_pos hneg]
    exact ⟨e, he, rfl⟩
  · rw [if_neg hneg]
    cases hb : containsD s.suppliers sid with
    | false =>
        have heq : (match add_or_update_product s ⟨i, n, pr, sid, q⟩ with
            | Except.ok s1 => s1
            | Except.error _ => s) = s := by
          simp [add_or_update_product, hb]
        rw [heq]
        exact ⟨e, he, rfl⟩
    | true =>
        cases hpl : lookupD s.products i with
        | none =>
            have hki : k ≠ i := by
              intro hk
              rw [hk, hpl] at he
              exact Option.noConfusion he
            have heq : (match add_or_update_product s ⟨i, n, pr, sid, q⟩ with
                | Except.ok s1 => s1
                | Except.error _ => s) =
                { s with products := insertD s.products i ⟨i, n, pr, sid, q⟩ } := by
              simp [add_or_update_product, hb, hpl]
            rw [heq]
            refine ⟨e, ?_, rfl⟩
            rw [lookupD_insertD_ne _ _ _ _ (Ne.symm hki)]
            exact he
        | some ex =>
            by_cases hsid : ex.supplier_id = sid
            · have heq : (match add_or_update_product s ⟨i, n, pr, sid, q⟩ with
                  | Except.ok s1 => s1
                  | Except.error _ => s) =
                  { s with products := insertD s.products i ⟨ex.id, n, pr, ex.supplier_id, q⟩ } := by
                simp [add_or_update_product, hb, hpl, hsid]
              rw [heq]
              by_cases hk : k = i
              · subst hk
                rw [hpl] at he
                injection he with he
                refine ⟨⟨ex.id, n, pr, ex.supplier_id, q⟩, lookupD_insertD_self _ _ _, ?_⟩
                rw [he]
              · refine ⟨e, ?_, rfl⟩
                rw [show ({ s with products := insertD s.products i ⟨ex.id, n, pr, ex.supplier_id, q⟩ } : MatamazonSystem).products = insertD s.products i ⟨ex.id, n, pr, ex.supplier_id, q⟩ from rfl]
                rw [lookupD_insertD_ne _ _ _ _ (Ne.symm hk)]
                exact he
            · have heq : (match add_or_update_product s ⟨i, n, pr, sid, q⟩ with
                  | Except.ok s1 => s1
                  | Except.error _ => s) = s := by
                simp [add_or_update_product, hb, hpl, hsid]
              rw [heq]
              exact ⟨e, he, rfl⟩

theorem runCmds_upserts_keep_supplier_id (cmds : List Cmd) :
    ∀ (s : MatamazonSystem) (k : Nat) (e : Product),
      (∀ c ∈ cmds, ∃ i n pr sid q, c = Cmd.upsert i n pr sid q) →
      lookupD s.products k = some e →
      ∃ e2, lookupD (runCmds s cmds).products k = some e2 ∧
        e2.supplier_id = e.supplier_id := by
  induction cmds with
  | nil =>
      intro s k e _ he
      exact ⟨e, he, rfl⟩
  | cons c rest ih =>
      intro s k e hall he
      obtain ⟨e1, he1, hs1⟩ :=
        upsert_keeps_supplier_id s c k e (hall c (List.mem_cons_self _ _)) he
      obtain ⟨e2, he2, hs2⟩ :=
        ih (execCmd s c) k e1 (fun c2 hc2 => hall c2 (List.mem_cons_of_mem _ hc2)) he1
      exact ⟨e2, he2, hs2.trans hs1⟩

/-- C3 (amended): a product's supplier_id is invariant across any number of
upserts to its id; an upsert carrying a different supplier_id fails with
InvalidIdentifier and leaves the stored product unchanged; and an upsert
with the same supplier_id overwrites exactly name, price and quantity,
retaining id and supplier_id, PROVIDED that supplier_id still names a
registered supplier — the supplier-existence check runs first, so if the
product's supplier was removed in the meantime the upsert instead fails
with InvalidIdentifier and mutates nothing. -/
theorem supplier_id_invariant_spec (s : MatamazonSystem) (p existing : Product)
    (hp : lookupD s.products p.id = some existing) :
    (existing.supplier_id ≠ p.supplier_id →
      ∃ msg, add_or_update_product s p = .error (.invalidId msg)) ∧
    (containsD s.suppliers p.supplier_id = true →
      existing.supplier_id = p.supplier_id →
      add_or_update_product s p =
        .ok { s with products := insertD s.products p.id (Product.mk existing.id p.name p.price existing.supplier_id p.quantity) }) ∧
    (∀ cmds : List Cmd,
      (∀ c ∈ cmds, ∃ i n pr sid q, c = Cmd.upsert i n pr sid q) →
      ∃ after : Product,
        lookupD (runCmds s cmds).products p.id = some after ∧
        after.supplier_id = existing.supplier_id) := by
  refine ⟨fun hne => ?_, fun hsup hsid => ?_,
    fun cmds hall => runCmds_upserts_keep_supplier_id cmds s p.id existing hall hp⟩
  · by_cases hb : containsD s.suppliers p.supplier_id = false
    · exact ⟨"Supplier does not exist", by simp only [add_or_update_product, if_pos hb]⟩
    · refine ⟨"Cannot change supplier_id for existing product", ?_⟩
      simp only [add_or_update_product, if_neg hb, hp]
      rw [if_pos hne]
  · have hb : ¬ (containsD s.suppliers p.supplier_id = false) := by simp [hsup]
    simp only [add_or_update_product, if_neg hb, hp]
    rw [if_neg (fun hne => hne hsid)]

/-- Intermediate state for the C3 counterexample: supplier 1 is removed after
product 10 (supplier_id 1) was added; the removal succeeds because no
order references a product of supplier 1. -/
def cexSupplierGone : MatamazonSystem := execCmd scenario2 (.remove 1 "supplier")

theorem cexSupplierGone_val : cexSupplierGone = ⟨[], [], [(10, widget)], [], 1⟩ := by
  simp only [cexSupplierGone, scenario2_val]
  rfl

/-- C3 counterexample: in a reachable state where product 10 still records
supplier_id 1 but supplier 1 has been removed, the upsert of product 10
carrying the SAME supplier_id 1 does not overwrite name/price/quantity as
the claim states — it fails with InvalidIdentifier ("Supplier does not
exist"). -/
theorem supplier_id_claim_counterexample :
    lookupD cexSupplierGone.products 10 = some widget ∧
    widget.supplier_id = 1 ∧
    add_or_update_product cexSupplierGone ⟨10, "Widget", 3, 1, 7⟩ =
      .error (.invalidId "Supplier does not exist") := by
  rw [cexSupplierGone_val]
  exact ⟨rfl, rfl, rfl⟩

/-- Witness for C3 (amended) on the scenario state, where supplier 1 is
still registered: a same-supplier upsert overwrites name/price/quantity in
place, and a different-supplier upsert fails with InvalidIdentifier. -/
theorem supplier_id_invariant_spec_witness :
    lookupD scenario2.products 10 = some widget ∧
    containsD scenario2.suppliers 1 = true ∧
    add_or_update_product scenario2 ⟨10, "Gadget", 7, 1, 9⟩ =
      .ok { scenario2 with
              products := insertD scenario2.products 10 ⟨10, "Gadget", 7, 1, 9⟩ } ∧
    (∃ msg, add_or_update_product scenario2 ⟨10, "Gadget", 7, 2, 9⟩ =
      .error (.invalidId msg)) ∧
    (∃ after : Product,
      lookupD (runCmds scenario2 []).products 10 = some after ∧
      after.supplier_id = widget.supplier_id) := by
  have hp : lookupD scenario2.products (10:Nat) = some widget := by
    rw [scenario2_val]
    rfl
  have hsup : containsD scenario2.suppliers 1 = true := by
    rw [scenario2_val]
    rfl
  have h1 := supplier_id_invariant_spec scenario2 ⟨10, "Gadget", 7, 1, 9⟩ widget hp
  have h2 := supplier_id_invariant_spec scenario2 ⟨10, "Gadget", 7, 2, 9⟩ widget hp
  exact ⟨hp, hsup, h1.2.1 hsup rfl, h2.1 (by decide),
    h1.2.2 [] (fun c hc => absurd hc (List.not_mem_nil c))⟩

theorem remove_object_order_eq (s : MatamazonSystem) ( _id : Nat) :
    remove_object s _id "order" =
      (match lookupD s.orders _id with
       | none => .error (.invalidId ("Order id does not exist: " ++ toString _id))
       | some order =>
          match lookupD s.products order.product_id with
          | none => .ok ({ s with orders := eraseD s.orders _id }, some order.quantity)
          | some p =>
              .ok ({ s with
                      orders := eraseD s.orders _id,
                      products := insertD s.products order.product_id
                        { p with quantity := p.quantity + order.quantity } },
                some order.quantity)) := by
  simp only [remove_object]
  rw [if_neg (by decide : ¬ pyLower (pyStrip "order") = "customer"),
      if_neg (by decide : ¬ pyLower (pyStrip "order") = "product"),
      if_neg (by decide : ¬ pyLower (pyStrip "order") = "supplier"),
      if_pos (by decide : pyLower (pyStrip "order") = "order")]

theorem remove_object_supplier_eq (s : MatamazonSystem) ( _id : Nat) :
    remove_object s _id "supplier" =
      (if containsD s.suppliers _id = false then
        .error (.invalidId ("Supplier id does not exist: " ++ toString _id))
      else if s.orders.any fun kv =>
          match lookupD s.products kv.2.product_id with
          | some p => p.supplier_id == _id
          | none => false then
        .error (.invalidId ("Cannot remove supplier with existing orders: " ++ toString _id))
      else
        .ok ({ s with suppliers := eraseD s.suppliers _id }, none)) := by
  simp only [remove_object]
  rw [if_neg (by decide : ¬ pyLower (pyStrip "supplier") = "customer"),
      if_neg (by decide : ¬ pyLower (pyStrip "supplier") = "product"),
      if_pos (by decide : pyLower (pyStrip "supplier") = "supplier")]

theorem supplier_dep_iff (s : MatamazonSystem) ( _id : Nat) :
    (s.orders.any fun kv =>
      match lookupD s.products kv.2.product_id with
      | some p => p.supplier_id == _id
      | none => false) = true ↔
    (∃ kv ∈ s.orders, ∃ p, lookupD s.products kv.2.product_id = some p ∧
      p.supplier_id = _id) := by
  rw [List.any_eq_true]
  constructor
  · rintro ⟨kv, hmem, hkv⟩
    cases hpl : lookupD s.products kv.2.product_id with
    | none =>
        rw [hpl] at hkv
        exact absurd hkv (by simp)
    | some p =>
        simp only [hpl] at hkv
        exact ⟨kv, hmem, p, hpl, by simpa using hkv⟩
  · rintro ⟨kv, hmem, p, hpl, hsid⟩
    refine ⟨kv, hmem, ?_⟩
    rw [hpl]
    simp [hsid]

/-- C5: remove_object(id, "order") fails with InvalidIdentifier when the
order id is absent; otherwise it removes the order, adds exactly the
order's quantity back to the referenced product's stock when that product
still exists (a no-op when it was already removed), leaves everything
else (including the order-id counter) unchanged, and returns the restored
quantity. -/
theorem remove_order_spec (s : MatamazonSystem) ( _id : Nat) :
    (lookupD s.orders _id = none →
      remove_object s _id "order" =
        .error (.invalidId ("Order id does not exist: " ++ toString _id))) ∧
    (∀ o, lookupD s.orders _id = some o →
      (lookupD s.products o.product_id = none →
        remove_object s _id "order" =
          .ok ({ s with orders := eraseD s.orders _id }, some o.quantity)) ∧
      (∀ p, lookupD s.products o.product_id = some p →
        remove_object s _id "order" =
          .ok ({ s with
                  orders := eraseD s.orders _id,
                  products := insertD s.products o.product_id
                    { p with quantity := p.quantity + o.quantity } },
            some o.quantity))) := by
  rw [remove_object_order_eq]
  refine ⟨fun h => ?_, fun o ho => ⟨fun hp => ?_, fun p hp => ?_⟩⟩
  · simp only [h]
  · simp only [ho, hp]
  · simp only [ho, hp]

/-- Witness for C5: in the scenario state (order 1 on product 10, quantity
2, stock 1), removing order 99 fails; removing order 1 erases it, adds 2
back to product 10 (stock becomes 3) and returns 2. -/
theorem remove_order_spec_witness :
    lookupD scenario3.orders 99 = none ∧
    remove_object scenario3 99 "order" =
      .error (.invalidId ("Order id does not exist: " ++ toString (99:Nat))) ∧
    lookupD scenario3.orders 1 = some ⟨1, 7, 10, 2, 5⟩ ∧
    lookupD scenario3.products 10 = some ⟨10, "Widget", 5 / 2, 1, 1⟩ ∧
    remove_object scenario3 1 "order" =
      .ok ({ scenario3 with
              orders := eraseD scenario3.orders 1,
              products := insertD scenario3.products 10 ⟨10, "Widget", 5 / 2, 1, 3⟩ },
        some 2) := by
  have h99 : lookupD scenario3.orders 99 = none := by
    rw [scenario3_val]
    rfl
  have h1 : lookupD scenario3.orders 1 = some ⟨1, 7, 10, 2, 5⟩ := by
    rw [scenario3_val]
    rfl
  have hp : lookupD scenario3.products (10:Nat) = some ⟨10, "Widget", 5 / 2, 1, 1⟩ := by
    rw [scenario3_val]
    rfl
  have ha := remove_order_spec scenario3 99
  have hb := remove_order_spec scenario3 1
  exact ⟨h99, ha.1 h99, h1, hp, (hb.2 ⟨1, 7, 10, 2, 5⟩ h1).2 ⟨10, "Widget", 5 / 2, 1, 1⟩ hp⟩

/-- C6: remove_object(id, "supplier") fails with InvalidIdentifier when the
supplier id is absent, and when some existing order references a product
(through the current product table) whose supplier_id equals this id; a
failure returns no new state, so all four registries are untouched;
otherwise exactly the supplier is removed. -/
theorem remove_supplier_spec (s : MatamazonSystem) ( _id : Nat) :
    (lookupD s.suppliers _id = none →
      remove_object s _id "supplier" =
        .error (.invalidId ("Supplier id does not exist: " ++ toString _id))) ∧
    (containsD s.suppliers _id = true →
      (∃ kv ∈ s.orders, ∃ p, lookupD s.products kv.2.product_id = some p ∧
        p.supplier_id = _id) →
      remove_object s _id "supplier" =
        .error (.invalidId ("Cannot remove supplier with existing orders: " ++ toString _id))) ∧
    (containsD s.suppliers _id = true →
      (∀ kv ∈ s.orders, ∀ p, lookupD s.products kv.2.product_id = some p →
        p.supplier_id ≠ _id) →
      remove_object s _id "supplier" =
        .ok ({ s with suppliers := eraseD s.suppliers _id }, none)) := by
  rw [remove_object_supplier_eq]
  refine ⟨fun h => ?_, fun hs hdep => ?_, fun hs hfree => ?_⟩
  · rw [if_pos ((containsD_eq_false_iff _ _).mpr h)]
  · rw [if_neg (by simp [hs]), if_pos ((supplier_dep_iff s _id).mpr hdep)]
  · rw [if_neg (by simp [hs]), if_neg ?hc]
    case hc =>
      intro hany
      obtain ⟨kv, hmem, p, hpl, hsid⟩ := (supplier_dep_iff s _id).mp hany
      exact hfree kv hmem p hpl hsid

/-- Witness for C6 at the scenario state: order 1 references product 10 of
supplier 1, so removing supplier 1 fails with InvalidIdentifier, while
removing an absent supplier id 99 also fails. -/
theorem remove_supplier_spec_witness :
    lookupD scenario3.suppliers 99 = none ∧
    remove_object scenario3 99 "supplier" =
      .error (.invalidId ("Supplier id does not exist: " ++ toString (99:Nat))) ∧
    containsD scenario3.suppliers 1 = true ∧
    (∃ kv ∈ scenario3.orders, ∃ p,
      lookupD scenario3.products kv.2.product_id = some p ∧ p.supplier_id = 1) ∧
    remove_object scenario3 1 "supplier" =
      .error (.invalidId ("Cannot remove supplier with existing orders: " ++ toString (1:Nat))) := by
  have h99 : lookupD scenario3.suppliers 99 = none := by
    rw [scenario3_val]
    rfl
  have hs : containsD scenario3.suppliers 1 = true := by
    rw [scenario3_val]
    rfl
  have hdep : ∃ kv ∈ scenario3.orders, ∃ p,
      lookupD scenario3.products kv.2.product_id = some p ∧ p.supplier_id = 1 := by
    refine ⟨(1, ⟨1, 7, 10, 2, 5⟩), ?_, ⟨10, "Widget", 5 / 2, 1, 1⟩, ?_, rfl⟩
    · rw [scenario3_val]
      exact List.mem_singleton.mpr rfl
    · rw [scenario3_val]
      rfl
  have ha := remove_supplier_spec scenario3 99
  have hb := remove_supplier_spec scenario3 1
  exact ⟨h99, ha.1 h99, hs, hdep, hb.2.1 hs hdep⟩

theorem register_entity_error_iff (s : MatamazonSystem) (e : Entity) (b : Bool) :
    (∃ err, register_entity s e b = .error err) ↔
      (containsD s.customers (Entity.id e) || containsD s.suppliers (Entity.id e)) = true := by
  unfold register_entity
  by_cases hc : (containsD s.customers (Entity.id e) || containsD s.suppliers (Entity.id e)) = true
  · rw [if_pos hc]
    simp [hc]
  · rw [if_neg hc]
    cases b <;> simp [hc]

theorem register_entity_ok_eq (s : MatamazonSystem) (e : Entity)
    (hc : containsD s.customers (Entity.id e) = false)
    (hs : containsD s.suppliers (Entity.id e) = false) :
    register_entity s e true =
      .ok { s with customers := insertD s.customers (Entity.id e) e } ∧
    register_entity s e false =
      .ok { s with suppliers := insertD s.suppliers (Entity.id e) e } := by
  constructor <;> simp [register_entity, hc, hs]

theorem register_entity_ok_effects (s : MatamazonSystem) (e : Entity) (b : Bool)
    (s1 : MatamazonSystem) (h : register_entity s e b = .ok s1) :
    s1.products = s.products ∧ s1.orders = s.orders ∧
    s1.next_order_id = s.next_order_id ∧
    (∀ k, containsD s1.customers k = true → k = Entity.id e ∨ containsD s.customers k = true) ∧
    (∀ k, containsD s1.suppliers k = true → k = Entity.id e ∨ containsD s.suppliers k = true) := by
  unfold register_entity at h
  split at h
  · exact Except.noConfusion h
  · split at h
    · injection h with h1
      subst h1
      exact ⟨rfl, rfl, rfl, fun k hk => containsD_insertD _ _ _ _ hk, fun k hk => Or.inr hk⟩
    · injection h with h1
      subst h1
      exact ⟨rfl, rfl, rfl, fun k hk => Or.inr hk, fun k hk => containsD_insertD _ _ _ _ hk⟩

theorem add_or_update_product_ok_registries (s : MatamazonSystem) (p : Product)
    (s1 : MatamazonSystem) (h : add_or_update_product s p = .ok s1) :
    s1.customers = s.customers ∧ s1.suppliers = s.suppliers ∧ s1.orders = s.orders ∧
    s1.next_order_id = s.next_order_id := by
  simp only [add_or_update_product] at h
  split at h
  · exact Except.noConfusion h
  · split at h
    · injection h with h1
      subst h1
      exact ⟨rfl, rfl, rfl, rfl⟩
    · split at h
      · exact Except.noConfusion h
      · injection h with h1
        subst h1
        exact ⟨rfl, rfl, rfl, rfl⟩

theorem place_order_cases (s : MatamazonSystem) (cid pid q : Nat) :
    (place_order s cid pid q).1 = s ∨
    ∃ product, lookupD s.products pid = some product ∧ q ≤ product.quantity ∧
      (place_order s cid pid q).1 =
        { s with
            products := insertD s.products pid
              { product with quantity := product.quantity - q },
            orders := insertD s.orders s.next_order_id
              ⟨s.next_order_id, cid, pid, q, product.price * (q : Rat)⟩,
            next_order_id := s.next_order_id + 1 } := by
  cases hpl : lookupD s.products pid with
  | none =>
      left
      simp only [place_order, hpl]
  | some product =>
      by_cases hq : product.quantity < q
      · left
        simp only [place_order, hpl, if_pos hq]
      · right
        exact ⟨product, rfl, not_lt.mp hq, by simp only [place_order, hpl, if_neg hq]⟩

theorem remove_object_ok_effects (s : MatamazonSystem) ( _id : Nat) (class_type : String)
    (s1 : MatamazonSystem) (r : Option Nat)
    (h : remove_object s _id class_type = .ok (s1, r)) :
    s1.next_order_id = s.next_order_id ∧
    (∀ k, containsD s1.orders k = true → containsD s.orders k = true) ∧
    (∀ k, containsD s1.customers k = true → containsD s.customers k = true) ∧
    (∀ k, containsD s1.suppliers k = true → containsD s.suppliers k = true) := by
  simp only [remove_object] at h
  repeat' split at h
  all_goals
    first
      | exact Except.noConfusion h
      | (injection h with h0
         injection h0 with h1 h2
         subst h1
         refine ⟨rfl, ?_, ?_, ?_⟩ <;> intro k hk <;>
           first
             | exact hk
             | exact containsD_eraseD _ _ _ hk)

theorem execCmd_upsert_regs (s : MatamazonSystem) (i : Nat) (n : String) (pr : Rat)
    (sid q : Nat) :
    (execCmd s (.upsert i n pr sid q)).customers = s.customers ∧
    (execCmd s (.upsert i n pr sid q)).suppliers = s.suppliers ∧
    (execCmd s (.upsert i n pr sid q)).orders = s.orders ∧
    (execCmd s (.upsert i n pr sid q)).next_order_id = s.next_order_id := by
  simp only [execCmd]
  by_cases hneg : pr < 0
  · rw [if_pos hneg]
    refine ⟨?_, ?_, ?_, ?_⟩ <;> trivial
  · rw [if_neg hneg]
    cases hadd : add_or_update_product s ⟨i, n, pr, sid, q⟩ with
    | ok s1 =>
        simp only [hadd]
        exact add_or_update_product_ok_registries s _ s1 hadd
    | error err =>
        simp only [hadd]
        refine ⟨?_, ?_, ?_, ?_⟩ <;> trivial

theorem execCmd_remove_effects (s : MatamazonSystem) (i : Nat) (t : String) :
    (execCmd s (.remove i t)).next_order_id = s.next_order_id ∧
    (∀ k, containsD (execCmd s (.remove i t)).orders k = true →
      containsD s.orders k = true) ∧
    (∀ k, containsD (execCmd s (.remove i t)).customers k = true →
      containsD s.customers k = true) ∧
    (∀ k, containsD (execCmd s (.remove i t)).suppliers k = true →
      containsD s.suppliers k = true) := by
  simp only [execCmd]
  cases hro : remove_object s i t with
  | ok pr1 =>
      obtain ⟨s1, r⟩ := pr1
      simp only [hro]
      exact remove_object_ok_effects s i t s1 r hro
  | error err =>
      simp only [hro]
      exact ⟨by trivial, fun k hk => hk, fun k hk => hk, fun k hk => hk⟩

theorem execCmd_next_mono (s : MatamazonSystem) (c : Cmd) :
    s.next_order_id ≤ (execCmd s c).next_order_id := by
  cases c with
  | register e b =>
      cases hre : register_entity s e b with
      | ok s1 =>
          simp only [execCmd, hre]
          exact le_of_eq (register_entity_ok_effects s e b s1 hre).2.2.1.symm
      | error err =>
          simp only [execCmd, hre]
          exact le_refl _
  | upsert i n pr sid q =>
      exact le_of_eq (execCmd_upsert_regs s i n pr sid q).2.2.2.symm
  | order cid pid q =>
      rcases place_order_cases s cid pid q with heq | ⟨product, -, -, heq⟩
      · rw [show execCmd s (Cmd.order cid pid q) = (place_order s cid pid q).1 from rfl, heq]
      · rw [show execCmd s (Cmd.order cid pid q) = (place_order s cid pid q).1 from rfl, heq]
        exact Nat.le_succ _
  | remove i t =>
      exact le_of_eq (execCmd_remove_effects s i t).1.symm

/-- The ledger invariant every command preserves: customer/supplier ids are
disjoint, the order-id counter is positive, and every live order id is
strictly below the counter. -/
def LedgerInv (s : MatamazonSystem) : Prop :=
  (∀ k, containsD s.customers k = true → containsD s.suppliers k = true → False) ∧
  1 ≤ s.next_order_id ∧
  (∀ k, containsD s.orders k = true → k < s.next_order_id)

theorem ledgerInv_initSystem : LedgerInv initSystem := by
  refine ⟨fun k hk _ => ?_, le_refl _, fun k hk => ?_⟩
  · exact absurd hk (by simp [initSystem, containsD, lookupD])
  · exact absurd hk (by simp [initSystem, containsD, lookupD])

theorem ledgerInv_execCmd (s : MatamazonSystem) (c : Cmd) (h : LedgerInv s) :
    LedgerInv (execCmd s c) := by
  obtain ⟨hdisj, hpos, hbound⟩ := h
  have hmono := execCmd_next_mono s c
  cases c with
  | register e b =>
      cases hre : register_entity s e b with
      | error err =>
          simp only [execCmd, hre]
          exact ⟨hdisj, hpos, hbound⟩
      | ok s1 =>
          simp only [execCmd, hre]
          obtain ⟨-, ho, hn, hcu, hsu⟩ := register_entity_ok_effects s e b s1 hre
          have hno : ¬ ((containsD s.customers (Entity.id e) ||
              containsD s.suppliers (Entity.id e)) = true) := by
            intro hcol
            obtain ⟨err, herr⟩ := (register_entity_error_iff s e b).mpr hcol
            rw [hre] at herr
            exact Except.noConfusion herr
          have hcf : containsD s.customers (Entity.id e) = false := by
            cases hb : containsD s.customers (Entity.id e) with
            | false => rfl
            | true => exact absurd (by simp [hb]) hno
          have hsf : containsD s.suppliers (Entity.id e) = false := by
            cases hb : containsD s.suppliers (Entity.id e) with
            | false => rfl
            | true => exact absurd (by simp [hb]) hno
          refine ⟨fun k hk1 hk2 => ?_, hn ▸ hpos, fun k hk => ?_⟩
          · cases b with
            | true =>
                have heq := (register_entity_ok_eq s e hcf hsf).1
                rw [hre] at heq
                injection heq with heq
                subst heq
                rcases containsD_insertD _ _ _ _ hk1 with rfl | hk1
                · exact absurd hk2 (by simp [hsf])
                · exact hdisj k hk1 hk2
            | false =>
                have heq := (register_entity_ok_eq s e hcf hsf).2
                rw [hre] at heq
                injection heq with heq
                subst heq
                rcases containsD_insertD _ _ _ _ hk2 with rfl | hk2
                · exact absurd hk1 (by simp [hcf])
                · exact hdisj k hk1 hk2
          · rw [hn]
            exact hbound k (by rwa [ho] at hk)
  | upsert i n pr sid q =>
      obtain ⟨hcu, hsu, ho, hn⟩ := execCmd_upsert_regs s i n pr sid q
      refine ⟨fun k hk1 hk2 => hdisj k (hcu ▸ hk1) (hsu ▸ hk2), hn ▸ hpos, fun k hk => ?_⟩
      rw [hn]
      exact hbound k (ho ▸ hk)
  | order cid pid q =>
      have hshow : execCmd s (Cmd.order cid pid q) = (place_order s cid pid q).1 := rfl
      rcases place_order_cases s cid pid q with heq | ⟨product, -, -, heq⟩
      · rw [hshow, heq]
        exact ⟨hdisj, hpos, hbound⟩
      · rw [hshow, heq]
        refine ⟨hdisj, le_trans hpos (Nat.le_succ _), fun k hk => ?_⟩
        rcases containsD_insertD _ _ _ _ hk with rfl | hk
        · exact Nat.lt_succ_self _
        · exact Nat.lt_succ_of_lt (hbound k hk)
  | remove i t =>
      obtain ⟨hn, ho, hcu, hsu⟩ := execCmd_remove_effects s i t
      refine ⟨fun k hk1 hk2 => hdisj k (hcu k hk1) (hsu k hk2), hn ▸ hpos, fun k hk => ?_⟩
      rw [hn]
      exact hbound k (ho k hk)

theorem runCmds_ledgerInv (cs : List Cmd) :
    ∀ s : MatamazonSystem, LedgerInv s → LedgerInv (runCmds s cs) := by
  induction cs with
  | nil => exact fun s h => h
  | cons c rest ih => exact fun s h => ih (execCmd s c) (ledgerInv_execCmd s c h)

theorem reachable_ledgerInv (s : MatamazonSystem) (h : Reachable s) : LedgerInv s := by
  obtain ⟨cs, rfl⟩ := h
  exact runCmds_ledgerInv cs initSystem ledgerInv_initSystem

/-- C4: register_entity fails (with InvalidIdentifier) exactly when the id
already exists in either registry — a single shared id namespace; on
success it inserts the entity into the selected registry with no other
side effects; consequently in every reachable state no id is both a
customer and a supplier. -/
theorem register_entity_spec :
    (∀ (s : MatamazonSystem) (e : Entity) (b : Bool),
      (∃ err, register_entity s e b = .error err) ↔
        (containsD s.customers (Entity.id e) || containsD s.suppliers (Entity.id e)) = true) ∧
    (∀ (s : MatamazonSystem) (e : Entity),
      containsD s.customers (Entity.id e) = false →
      containsD s.suppliers (Entity.id e) = false →
      register_entity s e true =
        .ok { s with customers := insertD s.customers (Entity.id e) e } ∧
      register_entity s e false =
        .ok { s with suppliers := insertD s.suppliers (Entity.id e) e }) ∧
    (∀ s : MatamazonSystem, Reachable s →
      ∀ k, containsD s.customers k = true → containsD s.suppliers k = true → False) :=
  ⟨register_entity_error_iff, register_entity_ok_eq,
    fun s h => (reachable_ledgerInv s h).1⟩

/-- Witness for C4: a fresh registration of supplier 1 succeeds; registering
id 1 again (as a customer) collides across the shared namespace and
fails; the reachable state after registration keeps the registries
disjoint. -/
theorem register_entity_spec_witness :
    containsD initSystem.customers (Entity.id acme) = false ∧
    containsD initSystem.suppliers (Entity.id acme) = false ∧
    register_entity initSystem acme false =
      .ok { initSystem with suppliers := insertD initSystem.suppliers (Entity.id acme) acme } ∧
    (containsD scenario1.customers (Entity.id acme) ||
      containsD scenario1.suppliers (Entity.id acme)) = true ∧
    (∃ err, register_entity scenario1 acme true = .error err) ∧
    Reachable scenario1 ∧
    (containsD scenario1.customers 1 = true →
      containsD scenario1.suppliers 1 = true → False) := by
  have h := register_entity_spec
  have hc : containsD initSystem.customers (Entity.id acme) = false := rfl
  have hs : containsD initSystem.suppliers (Entity.id acme) = false := rfl
  have hcol : (containsD scenario1.customers (Entity.id acme) ||
      containsD scenario1.suppliers (Entity.id acme)) = true := by
    rw [scenario1_val]
    rfl
  have hreach : Reachable scenario1 := ⟨[.register acme false], rfl⟩
  exact ⟨hc, hs, (h.2.1 initSystem acme hc hs).2, hcol,
    (h.1 scenario1 acme true).mpr hcol, hreach, h.2.2 scenario1 hreach 1⟩

/-- C8: in every reachable state the order-id counter is at least 1 and
every live order id is strictly below it; no command ever decreases the
counter; a successful placement consumes exactly the counter value and
increments it; and removing an order leaves the counter unchanged — so an
allocated order id is never allocated again, even after removal. -/
theorem order_id_spec (s : MatamazonSystem) (h : Reachable s) :
    1 ≤ s.next_order_id ∧
    (∀ k, containsD s.orders k = true → k < s.next_order_id) ∧
    (∀ c : Cmd, s.next_order_id ≤ (execCmd s c).next_order_id) ∧
    (∀ customer_id product_id quantity p,
      lookupD s.products product_id = some p → quantity ≤ p.quantity →
      lookupD (place_order s customer_id product_id quantity).1.orders s.next_order_id =
        some ⟨s.next_order_id, customer_id, product_id, quantity,
              p.price * (quantity : Rat)⟩ ∧
      (place_order s customer_id product_id quantity).1.next_order_id =
        s.next_order_id + 1) ∧
    (∀ ( _id : Nat) (s1 : MatamazonSystem) (r : Option Nat),
      remove_object s _id "order" = .ok (s1, r) →
      s1.next_order_id = s.next_order_id) := by
  obtain ⟨-, hpos, hbound⟩ := reachable_ledgerInv s h
  refine ⟨hpos, hbound, execCmd_next_mono s, fun cid pid q p hp hq => ?_,
    fun i s1 r hro => (remove_object_ok_effects s i "order" s1 r hro).1⟩
  have hlt : ¬ p.quantity < q := not_lt.mpr hq
  have heq : (place_order s cid pid q).1 =
      { s with
          products := insertD s.products pid { p with quantity := p.quantity - q },
          orders := insertD s.orders s.next_order_id
            ⟨s.next_order_id, cid, pid, q, p.price * (q : Rat)⟩,
          next_order_id := s.next_order_id + 1 } := by
    simp only [place_order, hp, if_neg hlt]
  rw [heq]
  exact ⟨lookupD_insertD_self _ _ _, rfl⟩

/-- Witness for C8: the scenario state is reachable, its counter is 2, and
its only live order id 1 is below the counter. -/
theorem order_id_spec_witness :
    Reachable scenario3 ∧
    1 ≤ scenario3.next_order_id ∧
    (∀ k, containsD scenario3.orders k = true → k < scenario3.next_order_id) := by
  have hreach : Reachable scenario3 :=
    ⟨[.register acme false, .upsert 10 "Widget" (5 / 2) 1 3, .order 7 10 2], rfl⟩
  have h := order_id_spec scenario3 hreach
  exact ⟨hreach, h.1, h.2.1⟩

theorem searchPred_iff (query : String) (mp : Option Rat) (p : Product) :
    searchPred query mp p = true ↔
      (0 < p.quantity ∧ strContains p.name query = true ∧
        ∀ m, mp = some m → p.price ≤ m) := by
  unfold searchPred
  cases mp with
  | none => simp [Nat.pos_iff_ne_zero]
  | some m => simp [Nat.pos_iff_ne_zero, not_lt, and_assoc]

theorem search_mem (s : MatamazonSystem) (query : String) (mp : Option Rat) (p : Product) :
    p ∈ search_products s query mp ↔
      p ∈ s.products.map Prod.snd ∧ searchPred query mp p = true := by
  unfold search_products
  rw [(List.mergeSort_perm _ _).mem_iff]
  exact List.mem_filter

theorem search_ids_nodup (s : MatamazonSystem) (query : String) (mp : Option Rat)
    (hids : ∀ kv ∈ s.products, (Prod.snd kv).id = Prod.fst kv)
    (hnodup : (s.products.map Prod.fst).Nodup) :
    ((search_products s query mp).map Product.id).Nodup := by
  have h1 : (s.products.map Prod.snd).map Product.id = s.products.map Prod.fst := by
    rw [List.map_map]
    exact List.map_congr_left fun kv hkv => hids kv hkv
  have h2 : ((s.products.map Prod.snd).filter (searchPred query mp)).Sublist
      (s.products.map Prod.snd) := List.filter_sublist _
  have h3 : (((s.products.map Prod.snd).filter (searchPred query mp)).map Product.id).Sublist
      ((s.products.map Prod.snd).map Product.id) := h2.map _
  have h4 : (((s.products.map Prod.snd).filter (searchPred query mp)).map Product.id).Nodup :=
    List.Nodup.sublist h3 (h1 ▸ hnodup)
  have h5 : ((search_products s query mp).map Product.id).Perm
      (((s.products.map Prod.snd).filter (searchPred query mp)).map Product.id) :=
    (List.mergeSort_perm _ _).map _
  exact h5.nodup_iff.mpr h4

theorem search_sorted (s : MatamazonSystem) (query : String) (mp : Option Rat)
    (hids : ∀ kv ∈ s.products, (Prod.snd kv).id = Prod.fst kv)
    (hnodup : (s.products.map Prod.fst).Nodup) :
    (search_products s query mp).Pairwise (fun a b => productLt a b = true) := by
  have hle : (search_products s query mp).Pairwise (fun a b => sortedLe a b = true) :=
    List.sorted_mergeSort sortedLe_trans sortedLe_total _
  have hne : (search_products s query mp).Pairwise (fun a b => a.id ≠ b.id) := by
    have h := search_ids_nodup s query mp hids hnodup
    rw [List.Nodup, List.pairwise_map] at h
    exact h
  exact pairwise_strict_of_sorted _ hle hne

/-- C7: search_products returns exactly the in-stock products whose name
contains the query (case-sensitively) and whose price is at most
max_price when one is given; the result is strictly sorted by ascending
price with ties broken by ascending id, and it is invariant under any
permutation of the product registry, hence deterministic; in particular
when nothing matches the result is empty. -/
theorem search_products_spec (s : MatamazonSystem) (query : String) (max_price : Option Rat)
    (hids : ∀ kv ∈ s.products, (Prod.snd kv).id = Prod.fst kv)
    (hnodup : (s.products.map Prod.fst).Nodup) :
    (∀ p : Product, p ∈ search_products s query max_price ↔
      (p ∈ s.products.map Prod.snd ∧ 0 < p.quantity ∧
        strContains p.name query = true ∧
        (∀ m, max_price = some m → p.price ≤ m))) ∧
    (search_products s query max_price).Pairwise (fun a b => productLt a b = true) ∧
    (∀ s2 : MatamazonSystem, s2.products.Perm s.products →
      search_products s2 query max_price = search_products s query max_price) := by
  refine ⟨fun p => ?_, search_sorted s query max_price hids hnodup, fun s2 hperm => ?_⟩
  · rw [search_mem, searchPred_iff]
  · have hids2 : ∀ kv ∈ s2.products, (Prod.snd kv).id = Prod.fst kv :=
      fun kv hkv => hids kv (hperm.subset hkv)
    have hnodup2 : (s2.products.map Prod.fst).Nodup := ((hperm.map Prod.fst).nodup_iff).mpr hnodup
    have hs1 := search_sorted s query max_price hids hnodup
    have hs2 := search_sorted s2 query max_price hids2 hnodup2
    have hperm_res : (search_products s2 query max_price).Perm
        (search_products s query max_price) := by
      unfold search_products
      refine (List.mergeSort_perm _ _).trans (List.Perm.trans ?_ (List.mergeSort_perm _ _).symm)
      exact (hperm.map Prod.snd).filter _
    haveI : IsAntisymm Product (fun a b => productLt a b = true) :=
      ⟨fun a b h1 h2 => (productLt_asymm a b h1 h2).elim⟩
    exact List.eq_of_perm_of_sorted hperm_res hs2 hs1

/-- Witness for C7 at the scenario state: the registry satisfies the
key-consistency hypotheses, and searching "idg" finds exactly the Widget
(quantity 1 > 0, "idg" a substring of "Widget"), in strictly sorted
order. -/
theorem search_products_spec_witness :
    (∀ kv ∈ scenario3.products, (Prod.snd kv).id = Prod.fst kv) ∧
    (scenario3.products.map Prod.fst).Nodup ∧
    ((⟨10, "Widget", 5 / 2, 1, 1⟩ : Product) ∈ search_products scenario3 "idg" none ↔
      ((⟨10, "Widget", 5 / 2, 1, 1⟩ : Product) ∈ scenario3.products.map Prod.snd ∧
        0 < (1:Nat) ∧ strContains "Widget" "idg" = true ∧
        (∀ m, (none : Option Rat) = some m → (5 / 2 : Rat) ≤ m))) ∧
    (search_products scenario3 "idg" none).Pairwise (fun a b => productLt a b = true) := by
  have hids : ∀ kv ∈ scenario3.products, (Prod.snd kv).id = Prod.fst kv := by
    rw [scenario3_val]
    intro kv hkv
    rcases List.mem_singleton.mp hkv with rfl
    rfl
  have hnodup : (scenario3.products.map Prod.fst).Nodup := by
    rw [scenario3_val]
    simp
  have h := search_products_spec scenario3 "idg" none hids hnodup
  exact ⟨hids, hnodup, h.1 _, h.2.1⟩

theorem lookupD_appendGroup_self (g : List (String × List String)) (city entry : String) :
    lookupD (appendGroup g city entry) city = some ((lookupD g city).getD [] ++ [entry]) := by
  induction g with
  | nil => simp [appendGroup, lookupD]
  | cons kv rest ih =>
      obtain ⟨c, xs⟩ := kv
      by_cases h : c = city
      · simp [appendGroup, h, lookupD]
      · simp [appendGroup, h, lookupD, ih]

theorem lookupD_appendGroup_ne (g : List (String × List String)) (city entry c2 : String)
    (h : city ≠ c2) :
    lookupD (appendGroup g city entry) c2 = lookupD g c2 := by
  induction g with
  | nil => simp [appendGroup, lookupD, h]
  | cons kv rest ih =>
      obtain ⟨c, xs⟩ := kv
      by_cases hc : c = city
      · subst hc
        simp [appendGroup, lookupD, h]
      · by_cases hc2 : c = c2 <;> simp [appendGroup, hc, lookupD, hc2, ih, Ne.symm h]

theorem keys_appendGroup (g : List (String × List String)) (city entry : String) :
    (appendGroup g city entry).map Prod.fst =
      if city ∈ g.map Prod.fst then g.map Prod.fst else g.map Prod.fst ++ [city] := by
  induction g with
  | nil => simp [appendGroup]
  | cons kv rest ih =>
      obtain ⟨c, xs⟩ := kv
      by_cases h : c = city
      · simp [appendGroup, h]
      · have hne : ¬ city = c := fun hh => h hh.symm
        simp only [appendGroup, if_neg h, List.map_cons, List.mem_cons, ih]
        by_cases hm : city ∈ rest.map Prod.fst
        · simp [hm, hne]
        · simp [hm, hne]

theorem newKeys_congr {α : Type} [DecidableEq α] (l : List α) :
    ∀ seen1 seen2 : List α, (∀ x, x ∈ seen1 ↔ x ∈ seen2) →
      newKeys seen1 l = newKeys seen2 l := by
  induction l with
  | nil => intro _ _ _; rfl
  | cons a rest ih =>
      intro seen1 seen2 h
      by_cases ha : a ∈ seen1
      · simp only [newKeys, if_pos ha, if_pos ((h a).mp ha)]
        exact ih seen1 seen2 h
      · simp only [newKeys, if_neg ha, if_neg (fun hm => ha ((h a).mpr hm))]
        rw [ih (a :: seen1) (a :: seen2) (fun x => by simp [h x])]

theorem export_fold_lookup (s : MatamazonSystem) (l : List (Nat × Order))
    (acc : List (String × List String)) (city : String) :
    lookupD (l.foldl
      (fun grouped kv =>
        match lookupD s.products kv.2.product_id with
        | none => grouped
        | some p =>
            match lookupD s.suppliers p.supplier_id with
            | none => grouped
            | some sup => appendGroup grouped (Entity.city sup) (orderRepr kv.2)) acc) city =
      (match lookupD acc city with
       | some xs => some (xs ++ cityEntriesL s l city)
       | none =>
          if cityEntriesL s l city = [] then none
          else some (cityEntriesL s l city)) := by
  induction l generalizing acc with
  | nil => cases h : lookupD acc city <;> simp [cityEntriesL, h]
  | cons kv rest ih =>
      cases hpl : lookupD s.products kv.2.product_id with
      | none =>
          have hent : cityEntriesL s (kv :: rest) city = cityEntriesL s rest city := by
            simp [cityEntriesL, hpl]
          simp only [List.foldl_cons, hpl, hent]
          exact ih acc
      | some p =>
          cases hsl : lookupD s.suppliers p.supplier_id with
          | none =>
              have hent : cityEntriesL s (kv :: rest) city = cityEntriesL s rest city := by
                simp [cityEntriesL, hpl, hsl]
              simp only [List.foldl_cons, hpl, hsl, hent]
              exact ih acc
          | some sup =>
              by_cases hc : Entity.city sup = city
              · have hent : cityEntriesL s (kv :: rest) city =
                    orderRepr kv.2 :: cityEntriesL s rest city := by
                  simp [cityEntriesL, hpl, hsl, hc]
                simp only [List.foldl_cons, hpl, hsl, hent]
                rw [ih (appendGroup acc (Entity.city sup) (orderRepr kv.2))]
                rw [hc, lookupD_appendGroup_self]
                cases hacc : lookupD acc city with
                | some xs => simp [hacc]
                | none => simp [hacc]
              · have hent : cityEntriesL s (kv :: rest) city = cityEntriesL s rest city := by
                  simp [cityEntriesL, hpl, hsl, hc]
                simp only [List.foldl_cons, hpl, hsl, hent]
                rw [ih (appendGroup acc (Entity.city sup) (orderRepr kv.2))]
                rw [lookupD_appendGroup_ne _ _ _ _ hc]

theorem export_fold_keys (s : MatamazonSystem) (l : List (Nat × Order))
    (acc : List (String × List String)) :
    (l.foldl
      (fun grouped kv =>
        match lookupD s.products kv.2.product_id with
        | none => grouped
        | some p =>
            match lookupD s.suppliers p.supplier_id with
            | none => grouped
            | some sup => appendGroup grouped (Entity.city sup) (orderRepr kv.2)) acc).map
        Prod.fst =
      acc.map Prod.fst ++ newKeys (acc.map Prod.fst) (orderCitiesL s l) := by
  induction l generalizing acc with
  | nil => simp [orderCitiesL, newKeys]
  | cons kv rest ih =>
      cases hpl : lookupD s.products kv.2.product_id with
      | none =>
          have hcit : orderCitiesL s (kv :: rest) = orderCitiesL s rest := by
            simp [orderCitiesL, hpl]
          simp only [List.foldl_cons, hpl, hcit]
          exact ih acc
      | some p =>
          cases hsl : lookupD s.suppliers p.supplier_id with
          | none =>
              have hcit : orderCitiesL s (kv :: rest) = orderCitiesL s rest := by
                simp [orderCitiesL, hpl, hsl]
              simp only [List.foldl_cons, hpl, hsl, hcit]
              exact ih acc
          | some sup =>
              have hcit : orderCitiesL s (kv :: rest) =
                  Entity.city sup :: orderCitiesL s rest := by
                simp [orderCitiesL, hpl, hsl]
              simp only [List.foldl_cons, hpl, hsl, hcit]
              rw [ih (appendGroup acc (Entity.city sup) (orderRepr kv.2)), keys_appendGroup]
              by_cases hmem : Entity.city sup ∈ acc.map Prod.fst
              · rw [if_pos hmem]
                rw [show newKeys (acc.map Prod.fst)
                      (Entity.city sup :: orderCitiesL s rest) =
                    newKeys (acc.map Prod.fst) (orderCitiesL s rest) from by
                  simp only [newKeys, if_pos hmem]]
              · rw [if_neg hmem]
                rw [show newKeys (acc.map Prod.fst)
                      (Entity.city sup :: orderCitiesL s rest) =
                    Entity.city sup ::
                      newKeys (Entity.city sup :: acc.map Prod.fst) (orderCitiesL s rest) from by
                  simp only [newKeys, if_neg hmem]]
                rw [newKeys_congr (orderCitiesL s rest)
                  (acc.map Prod.fst ++ [Entity.city sup])
                  (Entity.city sup :: acc.map Prod.fst)
                  (fun x => by simp [or_comm])]
                simp

/-- C9: export_orders groups each order description under the city of the
supplier of its product — the entries filed under a city are exactly the
descriptions of the non-skipped orders of that city, in ledger iteration
order; an order whose product or supplier no longer exists is skipped;
cities appear in first-seen order; and on the spec scenario the output is
the single NYC group with the exact order description string. -/
theorem export_orders_spec (s : MatamazonSystem) :
    (∀ city : String,
      lookupD (export_orders s) city =
        (if cityEntriesL s s.orders city = [] then none
         else some (cityEntriesL s s.orders city))) ∧
    ((export_orders s).map Prod.fst = firstSeen (orderCitiesL s s.orders)) ∧
    export_orders scenario3 =
      [("NYC", ["Order(id=1, customer_id=7, product_id=10, quantity=2, total_price=5.0)"])] := by
  refine ⟨fun city => ?_, ?_, ?_⟩
  · have h := export_fold_lookup s s.orders [] city
    rw [show lookupD ([] : List (String × List String)) city = none from rfl] at h
    exact h
  · have h := export_fold_keys s s.orders []
    rw [show (([] : List (String × List String)).map Prod.fst) = [] from rfl] at h
    rw [show ([] : List String) ++ newKeys [] (orderCitiesL s s.orders) =
        newKeys [] (orderCitiesL s s.orders) from by simp] at h
    exact h
  · rw [scenario3_val]
    rfl

end Matamazon
